import Mathlib

/-!
Verification of the Drongo agent control loops.

This file gives a shallow embedding of the two core state machines of the
repository — the HTML generation/validation/evaluation retry loop
(`src/agents/sub_agents/html.py`, class `HtmlAgent`) and the apply
location-decision flow (`src/agents/sub_agents/apply.py`, class
`ApplyAgent`) — together with the chunk-resolving apply tool
(`src/agents/tools/apply.py`) and the content chunk store
(`src/database/content_chunk_db.py`).

External collaborators (the language model, the HTML validator, Python's
`json.loads`) are modelled as oracle functions carried in an environment
record; everything the repository's own code does (state updates, branch
decisions, retry counting, fence stripping, the fenced-JSON regex search)
is translated directly from the Python source.
-/

/-- Python whitespace for `str.strip` and the regex class `\s`
(space, tab, newline, carriage return, vertical tab, form feed). -/
def isPySpace (c : Char) : Bool :=
  c = ' ' ∨ c = '\t' ∨ c = '\n' ∨ c = '\r' ∨ c = Char.ofNat 11 ∨ c = Char.ofNat 12

/-- Predicate `isPrefixList p l` : the char list `p` is a leading segment of `l`. -/
def isPrefixList : List Char → List Char → Bool
  | [], _ => true
  | _ :: _, [] => false
  | p :: ps, c :: cs => p = c && isPrefixList ps cs

/-- Drop the first `n` elements of a char list. -/
def dropList : Nat → List Char → List Char
  | 0, l => l
  | _, [] => []
  | n + 1, _ :: l => dropList n l

/-- Drop leading chars satisfying `p`. -/
def dropWhileList (p : Char → Bool) : List Char → List Char
  | [] => []
  | c :: cs => if p c then dropWhileList p cs else c :: cs

/-- Python `str.strip()` on a char list: remove leading and trailing whitespace. -/
def pyStripList (l : List Char) : List Char :=
  dropWhileList isPySpace ((dropWhileList isPySpace l.reverse).reverse)

/-- Python `str.strip()`. -/
def pyStrip (s : String) : String :=
  String.mk (pyStripList s.data)

/-- Fuel-bounded worker for Python `str.replace(pat, repl)`:
left-to-right, non-overlapping, replaces every occurrence. -/
def replaceAllAux (pat repl : List Char) : Nat → List Char → List Char
  | 0, l => l
  | _ + 1, [] => []
  | f + 1, c :: cs =>
    if isPrefixList pat (c :: cs) then
      repl ++ replaceAllAux pat repl f (dropList pat.length (c :: cs))
    else
      c :: replaceAllAux pat repl f cs

/-- Python `str.replace(pat, repl)` (all occurrences); empty pattern left as a no-op
(the source only ever replaces non-empty fence markers). -/
def replaceAll (pat repl s : String) : String :=
  if pat.data.isEmpty then s
  else String.mk (replaceAllAux pat.data repl.data s.data.length s.data)

/-- Python `str.upper()` restricted to ASCII, as used on apply type strings. -/
def pyUpper (s : String) : String :=
  String.mk (s.data.map Char.toUpper)

/-- The backtick character. -/
def btick : Char := Char.ofNat 96

/-- Opening brace character. -/
def lbrace : Char := Char.ofNat 123

/-- Closing brace character. -/
def rbrace : Char := Char.ofNat 125

/-- The literal triple backtick fence marker. -/
def tick3 : List Char := [btick, btick, btick]

/-- The literal `json` fence tag. -/
def jsonTag : List Char := ['j', 's', 'o', 'n']

/-- Lazy scan of `\{.*?\}` followed by `\s*` and a closing fence, from
`src/agents/sub_agents/apply.py` line 185: having consumed the opening brace,
find the shortest body ending at a closing brace that is followed by optional
whitespace and a closing triple backtick. `pre` holds the scanned body in
reverse. Returns the content from the opening brace through that closing
brace (the regex capture group), without the opening brace itself. -/
def scanClose (pre : List Char) : List Char → Option (List Char)
  | [] => none
  | c :: cs =>
    if c = rbrace ∧ isPrefixList tick3 (dropWhileList isPySpace cs) then
      some (pre.reverse ++ [rbrace])
    else
      scanClose (c :: pre) cs

/-- Try to match the regex ` ```(?:json)?\s*(\{.*?\})\s*``` ` (with DOTALL)
at the head of `l`; on success return the capture group. The optional
`json` tag is consumed when present (if it is present and consumed the match
can still proceed, while skipping it would immediately fail at the brace,
so consuming it is exact). -/
def matchFenceAt (l : List Char) : Option (List Char) :=
  if isPrefixList tick3 l then
    let r1 := dropList 3 l
    let r2 := if isPrefixList jsonTag r1 then dropList 4 r1 else r1
    match dropWhileList isPySpace r2 with
    | c :: cs => if c = lbrace then (scanClose [] cs).map (fun body => lbrace :: body) else none
    | [] => none
  else none

/-- Python `re.search` of the fenced-JSON pattern: try every start position from the
left, returning the first (leftmost) match's capture group. -/
def searchFence : List Char → Option (List Char)
  | [] => none
  | c :: cs =>
    match matchFenceAt (c :: cs) with
    | some cap => some cap
    | none => searchFence cs

/-- A result dict of the external validator: `{status, html}`
(spec section 6: `validateAndRepair(html) -> {status, html, message?}`). -/
structure ValidationResult where
  status : String
  html : String

/-- The final `{status, html}` response of `HtmlAgent.run`. -/
structure FinalResponse where
  status : String
  html : String
deriving DecidableEq

namespace HtmlAgent

/-- The `State` TypedDict of `src/agents/sub_agents/html.py` (the fields the
control flow reads; the `messages` channel is append-only logging and carries
no control-flow information). Python `None` / absent keys are `Option.none`. -/
structure State where
  html : String
  content_generation_outcome : Option String
  validation_outcome : Option String
  evaluator_score : Option Int
  evaluator_feedback : Option String
  current_retry_count : Nat
  best_html_so_far : String
  best_score_so_far : Int
  max_retries_reached : Bool

/-- Constructor configuration of `HtmlAgent` (acceptance threshold and retry cap). -/
structure Cfg where
  max_retries : Nat
  acceptance_threshold : Int

/-- Oracles for the external collaborators consumed by the loop, indexed by
invocation count: the generator model call (may raise), the composed
validator call `_clean_llm_html_output` then `validate_and_repair`
(may raise), and the structured evaluator call (may raise). -/
structure Env where
  gen : Nat → Except String String
  val : Nat → String → Except String ValidationResult
  evalr : Nat → Except String (Int × String)

/-- Method `moderator_action` (html.py lines 256-302): derive `is_retry` from the
recorded outcomes, increment on retry, stop when the count exceeds
`max_retries`, otherwise clear the transient fields. -/
def moderator_action (max_retries : Nat) (s : State) : State :=
  let current_retries :=
    if s.evaluator_score = none ∨ s.validation_outcome = some "error" then
      s.current_retry_count + 1
    else
      s.current_retry_count
  if current_retries > max_retries then
    { s with
      max_retries_reached := true
      current_retry_count := current_retries
      html := if s.html ≠ "" then s.html else "<p><span>Error: LLM returned empty content</span></p>" }
  else
    { s with
      html := ""
      evaluator_score := none
      evaluator_feedback := none
      content_generation_outcome := none
      validation_outcome := none
      current_retry_count := current_retries
      max_retries_reached := false }

/-- Fence stripping in `content_generator_action` (html.py lines 311-316);
`isPrefixList` is Python's `str.startswith`. -/
def stripFences (raw : String) : String :=
  let generated_html := pyStrip raw
  if isPrefixList (tick3 ++ ['h', 't', 'm', 'l']) generated_html.data then
    pyStrip (replaceAll (String.mk tick3) "" (replaceAll (String.mk (tick3 ++ ['h', 't', 'm', 'l'])) "" generated_html))
  else if isPrefixList tick3 generated_html.data then
    pyStrip (replaceAll (String.mk tick3) "" generated_html)
  else
    generated_html

/-- Method `content_generator_action` (html.py lines 304-338): invoke the model; on
success strip fences and record success, on an exception record the error
sentinel fragment and the error outcome. -/
def content_generator_action (r : Except String String) (s : State) : State :=
  match r with
  | .ok raw =>
    { s with html := stripFences raw, content_generation_outcome := some "success" }
  | .error e =>
    { s with
      html := "<p><span>Error during content generation: " ++ e ++ "</span></p>"
      content_generation_outcome := some "error" }

/-- Method `html_validator_action` (html.py lines 340-387): empty html is an
immediate validation error; otherwise consult the validator, propagating its
repaired html on both branches, and record the outcome; an exception records
an error outcome without touching the html. -/
def html_validator_action (r : Except String ValidationResult) (s : State) : State :=
  if s.html = "" then
    { s with validation_outcome := some "error" }
  else
    match r with
    | .ok validation_result =>
      if validation_result.status = "error" then
        { s with validation_outcome := some "error", html := validation_result.html }
      else
        { s with html := validation_result.html, validation_outcome := some "success" }
    | .error _ =>
      { s with validation_outcome := some "error" }

/-- Method `evaluator_action` (html.py lines 389-434): on a structured response,
record score and feedback and promote the current html to best-so-far only
when the score is strictly greater; on an exception record score 0 and
feedback, leaving best-so-far untouched. -/
def evaluator_action (r : Except String (Int × String)) (s : State) : State :=
  match r with
  | .ok (score, feedback) =>
    let updated := score > s.best_score_so_far
    { s with
      evaluator_score := some score
      evaluator_feedback := some feedback
      best_html_so_far := if updated then s.html else s.best_html_so_far
      best_score_so_far := if updated then score else s.best_score_so_far }
  | .error e =>
    { s with
      evaluator_score := some 0
      evaluator_feedback := some ("Error during evaluation: " ++ e) }

/-- Method `handle_content_error_action` (html.py lines 469-478). -/
def handle_content_error_action (s : State) : State :=
  { s with html := "<p><span>Content processing encountered an error.</span></p>" }

/-- Method `prepare_final_output_action` (html.py lines 480-493): the initial state
always sets `best_html_so_far` and `best_score_so_far`, so the `dict.get`
defaults are never taken and the best-so-far pair is emitted as is. -/
def prepare_final_output_action (s : State) : State :=
  { s with html := s.best_html_so_far, evaluator_score := some s.best_score_so_far }

end HtmlAgent

namespace HtmlAgent

/-- Graph nodes of the HtmlAgent StateGraph (html.py lines 69-118). -/
inductive Node
  | moderator
  | content_generator
  | html_validator_node
  | evaluator
  | handle_content_error
  | prepare_final_output
deriving DecidableEq

/-- Execution record threaded through the graph run: the TypedDict state,
per-oracle invocation counters, and two ghost fields used only in
specifications: `accepted` latches the Accept transition of
`check_evaluation_score`, `last_validated` records the repaired html
emitted by the most recent successful validation. -/
structure Run where
  st : State
  genCalls : Nat
  valCalls : Nat
  evalCalls : Nat
  steps : Nat
  accepted : Bool
  last_validated : String

/-- One superstep of the compiled graph: execute the node's action on the
state, then evaluate its (conditional) outgoing edge on the updated state,
exactly as langgraph does. `none` as the successor is END.
Branch decisions are the condition functions of html.py lines 496-519:
`decide_moderator_next_step`, `check_content_generation_outcome`
(default "error"), `check_validation_outcome` (default "error") and
`check_evaluation_score` (default score 0). -/
def step (cfg : Cfg) (env : Env) (n : Node) (rs : Run) : Run × Option Node :=
  match n with
  | .moderator =>
    let st := moderator_action cfg.max_retries rs.st
    ({ rs with st := st, steps := rs.steps + 1 },
      some (if st.max_retries_reached then .prepare_final_output else .content_generator))
  | .content_generator =>
    let st := content_generator_action (env.gen rs.genCalls) rs.st
    ({ rs with st := st, genCalls := rs.genCalls + 1, steps := rs.steps + 1 },
      some (if st.content_generation_outcome = some "success" then .html_validator_node else .handle_content_error))
  | .html_validator_node =>
    let consult := rs.st.html ≠ ""
    let st := html_validator_action (env.val rs.valCalls rs.st.html) rs.st
    let rs' := { rs with
      st := st
      valCalls := if consult then rs.valCalls + 1 else rs.valCalls
      steps := rs.steps + 1
      last_validated := if st.validation_outcome = some "success" then st.html else rs.last_validated }
    (rs', some (if st.validation_outcome = some "success" then .evaluator else .moderator))
  | .evaluator =>
    let st := evaluator_action (env.evalr rs.evalCalls) rs.st
    let rs' := { rs with st := st, evalCalls := rs.evalCalls + 1, steps := rs.steps + 1 }
    if st.evaluator_score.getD 0 ≥ cfg.acceptance_threshold then
      ({ rs' with accepted := true }, none)
    else
      (rs', some .moderator)
  | .handle_content_error =>
    ({ rs with st := handle_content_error_action rs.st, steps := rs.steps + 1 }, some .moderator)
  | .prepare_final_output =>
    ({ rs with st := prepare_final_output_action rs.st, steps := rs.steps + 1 }, none)

/-- Fuel-bounded graph execution. The fuel is the langgraph
`recursion_limit`: at most `fuel` supersteps run; the Boolean is `true`
when END was reached and `false` when the limit was exhausted
(`GraphRecursionError`). -/
def exec (cfg : Cfg) (env : Env) : Nat → Node → Run → Run × Bool
  | 0, _, rs => (rs, false)
  | fuel + 1, n, rs =>
    match step cfg env n rs with
    | (rs', none) => (rs', true)
    | (rs', some n') => exec cfg env fuel n' rs'

/-- The `initial_state` dict built by `HtmlAgent.run` (html.py lines 208-219). -/
def initial_state : State :=
  { html := ""
    content_generation_outcome := none
    validation_outcome := none
    evaluator_score := none
    evaluator_feedback := none
    current_retry_count := 0
    best_html_so_far := ""
    best_score_so_far := -1
    max_retries_reached := false }

/-- Initial execution record (fresh counters, ghosts cleared). -/
def initRun : Run :=
  { st := initial_state
    genCalls := 0
    valCalls := 0
    evalCalls := 0
    steps := 0
    accepted := false
    last_validated := "" }

/-- The recursion limit configured by `HtmlAgent.run` (html.py line 222). -/
def recursionLimit : Nat := 15

/-- Full execution of one run from START (which enters the moderator). -/
def execRun (cfg : Cfg) (env : Env) : Run × Bool :=
  exec cfg env recursionLimit .moderator initRun

/-- The fixed sentinel html of `HtmlAgent.run` (html.py lines 234, 244). -/
def errorHtml : String := "<p><span>Error: No satisfactory HTML generated</span></p>"

/-- Method `HtmlAgent.run` (html.py lines 203-254): invoke the graph under the
recursion limit; on completion derive `{status, html}` from the final state
(`status` is "success" iff the html is truthy and the recorded validation
outcome is not "error"; the html is replaced by the sentinel when the
recorded validation outcome is "error"); on `GraphRecursionError` return
the error sentinel. -/
def run (cfg : Cfg) (env : Env) : FinalResponse :=
  match execRun cfg env with
  | (rs, true) =>
    { status := if rs.st.html ≠ "" ∧ rs.st.validation_outcome ≠ some "error" then "success" else "error"
      html := if rs.st.validation_outcome ≠ some "error" then rs.st.html else errorHtml }
  | (_, false) =>
    { status := "error", html := errorHtml }

end HtmlAgent

namespace HtmlAg

/-- Method `moderator_action` of the second variant of the html agent
(`src/Agents/ContentAgent/html_ag.py` lines 244-284): `is_retry` is true when
an evaluator score IS recorded or validation failed, so the very first pass
does not increment; the stop path freezes the counter at its last valid
value (`current_retries - 1`). -/
def moderator_action (max_retries : Nat) (s : HtmlAgent.State) : HtmlAgent.State :=
  let current_retries :=
    if s.evaluator_score ≠ none ∨ s.validation_outcome = some "error" then
      s.current_retry_count + 1
    else
      s.current_retry_count
  if current_retries > max_retries then
    { s with
      max_retries_reached := true
      current_retry_count := current_retries - 1 }
  else
    { s with
      html := ""
      evaluator_score := none
      evaluator_feedback := none
      content_generation_outcome := none
      validation_outcome := none
      current_retry_count := current_retries
      max_retries_reached := false }

end HtmlAg

/-- Modelled from the spec: the closed apply-action enumeration
`applyType ∈ {INSERT, DELETE, EDIT}` (spec section 3). The source imports it
as `agents.tools.enums.ApplyType`, a module not present under `src/`. -/
inductive ApplyType
  | INSERT
  | DELETE
  | EDIT
deriving DecidableEq

/-- The `apply_type` run input before the moderator's `isinstance` check:
either a genuine `ApplyType` member or any other value (carried as its
string representation, e.g. the raw string "BOGUS"). -/
inductive ApplyArg
  | valid (t : ApplyType)
  | invalid (rep : String)
deriving DecidableEq

/-- The `isinstance(apply_type, ApplyType)` test (apply.py line 90). -/
def ApplyArg.isInstance : ApplyArg → Bool
  | .valid _ => true
  | .invalid _ => false

/-- String form used in the invalid-type error message. -/
def ApplyArg.repString : ApplyArg → String
  | .valid .INSERT => "ApplyType.INSERT"
  | .valid .DELETE => "ApplyType.DELETE"
  | .valid .EDIT => "ApplyType.EDIT"
  | .invalid r => r

namespace ApplyAgent

/-- The `State` TypedDict of `src/agents/sub_agents/apply.py` (control-flow
fields; `messages` is append-only logging). The `error` field is the ad-hoc
`"error"` key written by `moderator_action` on an invalid apply type. -/
structure State where
  apply_type : ApplyArg
  document_structure : String
  last_prompt : String
  chunk_id : String
  chunk_html : String
  outcome : String
  data_position_id_start : String
  data_position_id_end : String
  current_retry_count : Nat
  max_retries_reached : Bool
  error : Option String

/-- Oracles consumed by the apply flow: the location-decider model call
indexed by invocation count (may raise), Python's `json.loads` restricted to
the flat string-valued objects the prompt requests and the code reads
(`none` is a `JSONDecodeError`), and the status reported by the external
resume event (`none` when the resume payload has no `status` key). -/
structure Env where
  model : Nat → Except String String
  jparse : String → Option (List (String × String))
  resume : Option String

/-- Method `ApplyAgent.moderator_action` (apply.py lines 85-108): an invalid apply
type writes the `error` key and nothing else; otherwise the counter is
checked against `max_retries` before being incremented on every pass. -/
def moderator_action (max_retries : Nat) (s : State) : State :=
  if ¬ s.apply_type.isInstance then
    { s with error := some ("Invalid apply type: " ++ s.apply_type.repString) }
  else if s.current_retry_count > max_retries then
    { s with max_retries_reached := true }
  else
    { s with current_retry_count := s.current_retry_count + 1, max_retries_reached := false }

/-- The JSON payload selected by `location_decider_action` (apply.py lines
185-190): the capture group of the fenced-block regex when it matches,
otherwise the whole (already stripped) content. -/
def jsonPayload (content : String) : String :=
  match searchFence content.data with
  | some cap => String.mk cap
  | none => content

/-- Assoc-list lookup for the parsed JSON object (`dict.get`). -/
def lookupField : List (String × String) → String → Option String
  | [], _ => none
  | (k, v) :: rest, key => if k = key then some v else lookupField rest key

/-- Method `location_decider_action` (apply.py lines 169-207): invoke the model; a
model exception is the outer `except` (outcome "error"); otherwise strip the
content, select the fenced or whole payload, and parse it: on success record
the two position ids with `dict.get` default "-1", on `JSONDecodeError`
record outcome "error". -/
def location_decider_action (r : Except String String)
    (jparse : String → Option (List (String × String))) (s : State) : State :=
  match r with
  | .error _ => { s with outcome := "error" }
  | .ok raw =>
    let content := pyStrip raw
    match jparse (jsonPayload content) with
    | some result =>
      { s with
        outcome := "success"
        data_position_id_start := (lookupField result "data-position-id-start").getD "-1"
        data_position_id_end := (lookupField result "data-position-id-end").getD "-1" }
    | none => { s with outcome := "error" }

/-- Method `request_apply` (apply.py lines 210-230): emit the interrupt payload,
suspend, and on resume record `response.get("status", 'error')` as the
outcome. The payload content and queue emission are transport side effects
with no influence on state. -/
def request_apply (resume : Option String) (s : State) : State :=
  { s with outcome := resume.getD "error" }

/-- Method `handle_error_action` (apply.py lines 232-241): writes only the `result`
dict and a log message; no tracked field changes. -/
def handle_error_action (s : State) : State := s

/-- Graph nodes of the ApplyAgent StateGraph (apply.py lines 45-81). -/
inductive Node
  | moderator
  | location_decider
  | send_apply_request
  | handle_error
deriving DecidableEq

/-- Successor of a superstep: another node, END, or an invalid conditional
branch value (an outcome string outside the edge mapping, which langgraph
surfaces as an exception). -/
inductive Next
  | node (n : Node)
  | halt
  | invalidBranch
deriving DecidableEq

/-- Execution record: state plus invocation counters for the decider model
call and the apply-request suspension point. -/
structure Run where
  st : State
  modelCalls : Nat
  applyCalls : Nat

/-- One superstep of the compiled apply graph: run the node's action, then
evaluate its outgoing edge on the updated state
(`decide_moderator_next_step`, apply.py lines 244-249, and `check_outcome`,
lines 251-254). -/
def step (max_retries : Nat) (env : Env) (n : Node) (rs : Run) : Run × Next :=
  match n with
  | .moderator =>
    let st := moderator_action max_retries rs.st
    ({ rs with st := st },
      if st.error.isSome then .node .handle_error
      else if st.max_retries_reached then .node .handle_error
      else .node .location_decider)
  | .location_decider =>
    let st := location_decider_action (env.model rs.modelCalls) env.jparse rs.st
    ({ rs with st := st, modelCalls := rs.modelCalls + 1 },
      if st.outcome = "success" then .node .send_apply_request
      else if st.outcome = "error" then .node .moderator
      else .invalidBranch)
  | .send_apply_request =>
    let st := request_apply env.resume rs.st
    ({ rs with st := st, applyCalls := rs.applyCalls + 1 },
      if st.outcome = "success" then .halt
      else if st.outcome = "error" then .node .handle_error
      else .invalidBranch)
  | .handle_error =>
    ({ rs with st := handle_error_action rs.st }, .halt)

/-- Terminal condition of a graph execution. -/
inductive Outcome
  | finished
  | recursionLimit
  | invalidBranch
deriving DecidableEq

/-- Fuel-bounded execution of the apply graph under the langgraph
`recursion_limit`. -/
def exec (max_retries : Nat) (env : Env) : Nat → Node → Run → Run × Outcome
  | 0, _, rs => (rs, .recursionLimit)
  | fuel + 1, n, rs =>
    match step max_retries env n rs with
    | (rs', .halt) => (rs', .finished)
    | (rs', .invalidBranch) => (rs', .invalidBranch)
    | (rs', .node n') => exec max_retries env fuel n' rs'

/-- The `initial_state` dict built by `ApplyAgent.run` (apply.py lines 267-280). -/
def initial_state (apply_type : ApplyArg) (document_structure last_prompt chunk_id chunk_html : String) : State :=
  { apply_type := apply_type
    document_structure := document_structure
    last_prompt := last_prompt
    chunk_id := chunk_id
    chunk_html := chunk_html
    outcome := "N/A"
    data_position_id_start := "-1"
    data_position_id_end := "-1"
    current_retry_count := 0
    max_retries_reached := false
    error := none }

/-- Initial execution record. -/
def initRun (apply_type : ApplyArg) (document_structure last_prompt chunk_id chunk_html : String) : Run :=
  { st := initial_state apply_type document_structure last_prompt chunk_id chunk_html
    modelCalls := 0
    applyCalls := 0 }

/-- The final response of `ApplyAgent.run`: on the normal path, a status with
the two position ids; on the exception path (recursion limit or invalid
branch), a status with no position ids (the Python response carries only a
`message` there). -/
structure Response where
  status : String
  data_position_id_start : Option String
  data_position_id_end : Option String
deriving DecidableEq

/-- Method `ApplyAgent.run` (apply.py lines 256-308): invoke the graph with
`recursion_limit` 15; on completion, status is "error" unless the outcome is
"success"; any exception is caught and converted to a bare error response. -/
def run (max_retries : Nat) (env : Env) (apply_type : ApplyArg)
    (document_structure last_prompt chunk_id chunk_html : String) : Response :=
  match exec max_retries env 15 .moderator (initRun apply_type document_structure last_prompt chunk_id chunk_html) with
  | (rs, .finished) =>
    { status := if rs.st.outcome ≠ "success" then "error" else "success"
      data_position_id_start := some rs.st.data_position_id_start
      data_position_id_end := some rs.st.data_position_id_end }
  | (_, _) =>
    { status := "error", data_position_id_start := none, data_position_id_end := none }

end ApplyAgent

/-- Class `ContentChunk` (src/database/content_chunk_db.py lines 5-15): a persisted
content chunk row. -/
structure ContentChunk where
  id : String
  html : String
  position_guideline : String
  status : String

namespace ContentChunkDB

/-- The `content_chunks` sqlite table keyed by its `id` primary key,
modelled as an association list. -/
def Table := List (String × ContentChunk)

/-- Method `ContentChunkDB.load_content_chunk` (content_chunk_db.py lines 68-74):
select the row with the given primary key, `None` when absent. -/
def load_content_chunk (table : Table) (id : String) : Option ContentChunk :=
  match table with
  | [] => none
  | (k, c) :: rest => if k = id then some c else load_content_chunk rest id

end ContentChunkDB

namespace ApplyTool

/-- The dict returned by `ApplyTool.apply` (src/agents/tools/apply.py lines
83-110): a bare `{"error": ...}` dict (missing chunk), a parse-failure dict
`{"error": ..., "raw_response": ...}`, or the parsed JSON object. -/
inductive ToolResult
  | errorDict (error : String)
  | parseErrorDict (error : String) (raw_response : String)
  | json (fields : List (String × String))
deriving DecidableEq

/-- Outcome of one `ApplyTool.apply` call: the model invocation is not
wrapped in a `try`, so a model exception propagates to the caller. -/
inductive ToolOutcome
  | raised (e : String)
  | result (r : ToolResult)
deriving DecidableEq

/-- Oracles for `ApplyTool.apply`: the single model invocation of one call,
and Python's `json.loads` on flat string-valued objects (`.error` carries
the exception text of the generic `except`). -/
structure Env where
  model : Except String String
  jparse : String → Except String (List (String × String))

/-- The Markdown stripping of `ApplyTool.apply` (tools/apply.py lines
100-106): strip, then peel a leading ```` ```json ````, a leading
```` ``` ````, and a trailing ```` ``` ````, re-stripping after each peel. -/
def stripToolFences (raw : String) : String :=
  let c0 := pyStrip raw
  let c1 := if isPrefixList (tick3 ++ jsonTag) c0.data then pyStrip (String.mk (dropList 7 c0.data)) else c0
  let c2 := if isPrefixList tick3 c1.data then pyStrip (String.mk (dropList 3 c1.data)) else c1
  if isPrefixList tick3 c2.data.reverse then
    pyStrip (String.mk (c2.data.take (c2.data.length - 3)))
  else c2

/-- Method `ApplyTool.apply` (tools/apply.py lines 83-110) together with the number
of model invocations it performs: for INSERT and EDIT (case-insensitive) the
chunk is first resolved against the store and a missing chunk returns the
`"Chunk with id <id> not found."` error dict before any model call;
otherwise the model is invoked on the prompt and its response is stripped
and parsed, a parse failure yielding the raw-response error dict.
`invokeAndParse` is the model-invocation tail shared by both branches. -/
def invokeAndParse (env : Env) : ToolOutcome × Nat :=
  match env.model with
  | .error e => (.raised e, 1)
  | .ok response =>
    match env.jparse (stripToolFences response) with
    | .ok result => (.result (.json result), 1)
    | .error e => (.result (.parseErrorDict ("Failed to parse LLM response: " ++ e) response), 1)

/-- The chunk-resolution front of `ApplyTool.apply`: INSERT and EDIT
(case-insensitive) resolve the chunk id first and short-circuit on a missing
chunk with zero model invocations; every other path proceeds to the model. -/
def apply (content_db : ContentChunkDB.Table) (env : Env)
    (chunk_id type document_structure last_prompt : String) : ToolOutcome × Nat :=
  if pyUpper type = "INSERT" ∨ pyUpper type = "EDIT" then
    match ContentChunkDB.load_content_chunk content_db chunk_id with
    | none => (.result (.errorDict ("Chunk with id " ++ chunk_id ++ " not found.")), 0)
    | some _ => invokeAndParse env
  else invokeAndParse env

end ApplyTool

/-! ## Concrete environments used to evaluate the loops at specific inputs -/

/-- A generator/validator pair that always succeeds while the evaluator
always returns a below-threshold score of 50. -/
def envLowScore : HtmlAgent.Env :=
  { gen := fun _ => .ok "h"
    val := fun _ h => .ok { status := "success", html := h }
    evalr := fun _ => .ok (50, "fb") }

/-- First attempt succeeds with score 50; the second generator call raises. -/
def envGenFails2 : HtmlAgent.Env :=
  { gen := fun n => if n = 0 then .ok "h1" else .error "boom"
    val := fun _ h => .ok { status := "success", html := h }
    evalr := fun _ => .ok (50, "fb") }

/-- Everything succeeds and the evaluator immediately scores 95. -/
def envAccept : HtmlAgent.Env :=
  { gen := fun _ => .ok "<p><span>ok</span></p>"
    val := fun _ h => .ok { status := "success", html := h }
    evalr := fun _ => .ok (95, "good") }

/-- The validator reports success but returns an empty repaired string;
the evaluator scores 95. -/
def envEmptyValidated : HtmlAgent.Env :=
  { gen := fun _ => .ok "x"
    val := fun _ _ => .ok { status := "success", html := "" }
    evalr := fun _ => .ok (95, "good") }

/-- A `HtmlAgent` configuration with `max_retries = 1`, threshold 90. -/
def cfgR1 : HtmlAgent.Cfg := { max_retries := 1, acceptance_threshold := 90 }

/-- The default `HtmlAgent` configuration (`max_retries = 3`, threshold 90). -/
def cfgDefault : HtmlAgent.Cfg := { max_retries := 3, acceptance_threshold := 90 }

/-- An apply-flow model response wrapping a JSON object, missing the end key,
in a `json`-tagged fence. -/
def fencedStartOnly : String :=
  "```json \x7b\"data-position-id-start\": \"5\"\x7d ```"

/-- Apply-flow environment whose model emits `fencedStartOnly`, whose JSON
parser recognises exactly that payload, and whose resume event succeeds. -/
def envApplyGood : ApplyAgent.Env :=
  { model := fun _ => .ok fencedStartOnly
    jparse := fun s =>
      if s = "\x7b\"data-position-id-start\": \"5\"\x7d" then
        some [("data-position-id-start", "5")]
      else none
    resume := some "success" }

/-- Same as `envApplyGood` but the external resume event reports failure. -/
def envApplyFail : ApplyAgent.Env :=
  { envApplyGood with resume := some "failure" }

/-- Apply-flow environment whose model output never parses as JSON. -/
def envApplyUnparsable : ApplyAgent.Env :=
  { model := fun _ => .ok "garbage"
    jparse := fun _ => none
    resume := some "success" }

/-- Apply-tool environment (model response and JSON parse never consulted
on the missing-chunk path). -/
def toolEnvW : ApplyTool.Env :=
  { model := .ok "r", jparse := fun _ => .error "e" }

/-! ## Claims -/

/-- C1: the claim reads the RetryModerator rule as "the very first invocation
(no prior outcome recorded) counts as attempt 0 and does not increment
retryCount". The shipped generation-loop moderator
(`HtmlAgent.moderator_action`, src/agents/sub_agents/html.py) computes
`is_retry = (evaluator_score is None) or (validation_outcome == "error")`,
which is true on the fresh initial state, so the very first invocation
already increments the counter to 1 (and the apply-flow moderator increments
unconditionally); only the `src/Agents/ContentAgent/html_ag.py` variant
(`HtmlAg.moderator_action`) keeps it at 0. This theorem evaluates all three
moderators on the fresh initial state. -/
theorem c1_first_invocation_increments_retry_count :
    HtmlAgent.initial_state.evaluator_score = none ∧
    HtmlAgent.initial_state.validation_outcome = none ∧
    HtmlAgent.initial_state.current_retry_count = 0 ∧
    (HtmlAgent.moderator_action 3 HtmlAgent.initial_state).current_retry_count = 1 ∧
    (HtmlAg.moderator_action 3 HtmlAgent.initial_state).current_retry_count = 0 ∧
    (ApplyAgent.moderator_action 3
      (ApplyAgent.initial_state (.valid .INSERT) "" "" "" "")).current_retry_count = 1 := by
  refine ⟨rfl, rfl, rfl, ?_, ?_, ?_⟩ <;> decide

/-- C2: the claim bounds content-generation invocations by `maxRetries + 1`.
With `max_retries = 1` and an evaluator that always returns 50 (below the
threshold of 90), the shipped moderator never increments the retry counter
on the low-score path (`evaluator_score` is not `None` there), so the loop
spins until the recursion limit and the generator is invoked 4 > 1 + 1
times. -/
theorem c2_generator_budget_exceeded :
    (HtmlAgent.execRun cfgR1 envLowScore).1.genCalls = 4 ∧
    cfgR1.max_retries + 1 < 4 ∧
    (∀ n, envLowScore.evalr n = .ok (50, "fb")) ∧
    (50 : Int) < cfgR1.acceptance_threshold ∧
    (HtmlAgent.execRun cfgR1 envLowScore).2 = false := by
  exact ⟨rfl, by decide, fun _ => rfl, by decide, rfl⟩

/-- C4: the claim requires `status ≠ success` whenever the evaluator never
reaches the threshold. With `max_retries = 1`, a first attempt scoring 50
and a second generator call that raises, the run exhausts its budget, emits
`best_html_so_far` — and reports `status = "success"`, because
`HtmlAgent.run` derives the status from html non-emptiness and the (cleared)
validation outcome instead of an accept event. -/
theorem c4_error_path_reports_success :
    HtmlAgent.run cfgR1 envGenFails2 = { status := "success", html := "h1" } ∧
    (∀ n, envGenFails2.evalr n = .ok (50, "fb")) ∧
    (50 : Int) < cfgR1.acceptance_threshold ∧
    (HtmlAgent.execRun cfgR1 envGenFails2).1.accepted = false ∧
    (HtmlAgent.execRun cfgR1 envGenFails2).1.st.best_html_so_far = "h1" := by
  exact ⟨rfl, fun _ => rfl, by decide, rfl, rfl⟩

/-- C9: an apply-flow run whose `applyType` input is not an `ApplyType`
member terminates with `status = "error"`, performs zero model invocations,
never reaches the apply-request step, and leaves the retry counter at 0
(the invalid-type path consumes no retry budget). Settled against the
moderator's `isinstance` check (apply.py lines 90-92) and
`decide_moderator_next_step` (lines 244-249); the `ApplyType` enumeration
itself is modelled from the spec (the `agents.tools.enums` module is not
under src/). -/
theorem c9_invalid_apply_type_immediate_error
    (max_retries : Nat) (env : ApplyAgent.Env) (bad d p cid ch : String) :
    (ApplyAgent.run max_retries env (.invalid bad) d p cid ch).status = "error" ∧
    (ApplyAgent.exec max_retries env 15 .moderator
      (ApplyAgent.initRun (.invalid bad) d p cid ch)).1.modelCalls = 0 ∧
    (ApplyAgent.exec max_retries env 15 .moderator
      (ApplyAgent.initRun (.invalid bad) d p cid ch)).1.applyCalls = 0 ∧
    (ApplyAgent.exec max_retries env 15 .moderator
      (ApplyAgent.initRun (.invalid bad) d p cid ch)).1.st.current_retry_count = 0 ∧
    (ApplyAgent.exec max_retries env 15 .moderator
      (ApplyAgent.initRun (.invalid bad) d p cid ch)).2 = .finished := by
  exact ⟨rfl, rfl, rfl, rfl, rfl⟩

/-- C9 witness: the concrete scenario `applyType = "BOGUS"` from the spec. -/
theorem c9_witness :
    (ApplyAgent.run 3 envApplyGood (.invalid "BOGUS") "doc" "prompt" "c1" "<p>").status = "error" ∧
    (ApplyAgent.exec 3 envApplyGood 15 .moderator
      (ApplyAgent.initRun (.invalid "BOGUS") "doc" "prompt" "c1" "<p>")).1.modelCalls = 0 :=
  ⟨(c9_invalid_apply_type_immediate_error 3 envApplyGood "BOGUS" "doc" "prompt" "c1" "<p>").1,
   (c9_invalid_apply_type_immediate_error 3 envApplyGood "BOGUS" "doc" "prompt" "c1" "<p>").2.1⟩

/-- C10: for INSERT or EDIT (case-insensitive), `ApplyTool.apply` resolves
the chunk id against the content-chunk table first; when no row has that id
it returns the `{"error": "Chunk with id <id> not found."}` dict immediately,
with zero model invocations, and the error message contains the chunk id. -/
theorem c10_missing_chunk_immediate_error
    (db : ContentChunkDB.Table) (env : ApplyTool.Env) (cid ty d p : String)
    (hty : pyUpper ty = "INSERT" ∨ pyUpper ty = "EDIT")
    (hnone : ContentChunkDB.load_content_chunk db cid = none) :
    ApplyTool.apply db env cid ty d p =
      (.result (.errorDict ("Chunk with id " ++ cid ++ " not found.")), 0) ∧
    ∃ pre post, "Chunk with id " ++ cid ++ " not found." = pre ++ cid ++ post := by
  constructor
  · unfold ApplyTool.apply
    rw [if_pos hty, hnone]
  · exact ⟨"Chunk with id ", " not found.", rfl⟩

/-- C10 witness: the spec's concrete scenario — `applyType = "EDIT"` with a
chunk id absent from an empty store. -/
theorem c10_witness :
    ApplyTool.apply [] toolEnvW "abc" "EDIT" "doc" "prompt" =
      (.result (.errorDict ("Chunk with id " ++ "abc" ++ " not found.")), 0) ∧
    ∃ pre post, "Chunk with id " ++ "abc" ++ " not found." = pre ++ "abc" ++ post :=
  c10_missing_chunk_immediate_error [] toolEnvW "abc" "EDIT" "doc" "prompt" (Or.inr rfl) rfl

/-- C3 counterexample: the claim promises `status = success` whenever some
attempt's evaluation reaches the threshold. When the validator reports
success with an empty repaired string and the evaluator then scores 95 ≥ 90,
the loop does accept, but `HtmlAgent.run` reports `status = "error"` because
the returned html is empty (falsy). -/
theorem c3_counterexample_empty_validated_html :
    (HtmlAgent.execRun cfgDefault envEmptyValidated).1.accepted = true ∧
    envEmptyValidated.evalr 0 = .ok (95, "good") ∧
    cfgDefault.acceptance_threshold ≤ (95 : Int) ∧
    HtmlAgent.run cfgDefault envEmptyValidated = { status := "error", html := "" } := by
  exact ⟨rfl, rfl, by decide, rfl⟩

/-! ## Helper lemmas about the generation-loop actions -/

namespace HtmlAgent

theorem moderator_action_best (m : Nat) (s : State) :
    (moderator_action m s).best_score_so_far = s.best_score_so_far ∧
    (moderator_action m s).best_html_so_far = s.best_html_so_far := by
  constructor <;> (simp only [moderator_action]; split <;> split <;> rfl)

theorem content_generator_action_best (r : Except String String) (s : State) :
    (content_generator_action r s).best_score_so_far = s.best_score_so_far ∧
    (content_generator_action r s).best_html_so_far = s.best_html_so_far := by
  cases r <;> simp [content_generator_action]

theorem html_validator_action_best (r : Except String ValidationResult) (s : State) :
    (html_validator_action r s).best_score_so_far = s.best_score_so_far ∧
    (html_validator_action r s).best_html_so_far = s.best_html_so_far := by
  constructor <;>
    (simp only [html_validator_action]
     split
     · rfl
     · cases r with
       | error e => rfl
       | ok v => simp only; split <;> rfl)

theorem handle_content_error_action_best (s : State) :
    (handle_content_error_action s).best_score_so_far = s.best_score_so_far ∧
    (handle_content_error_action s).best_html_so_far = s.best_html_so_far :=
  ⟨rfl, rfl⟩

theorem prepare_final_output_action_best (s : State) :
    (prepare_final_output_action s).best_score_so_far = s.best_score_so_far ∧
    (prepare_final_output_action s).best_html_so_far = s.best_html_so_far :=
  ⟨rfl, rfl⟩

/-- The best-so-far update of `evaluator_action`: the score never decreases,
and the pair changes only on a successful structured response whose score is
strictly greater, in which case it becomes the current html with that
score. -/
theorem evaluator_action_best (r : Except String (Int × String)) (s : State) :
    s.best_score_so_far ≤ (evaluator_action r s).best_score_so_far ∧
    (((evaluator_action r s).best_html_so_far, (evaluator_action r s).best_score_so_far) ≠
        (s.best_html_so_far, s.best_score_so_far) →
      ∃ sc fb, r = .ok (sc, fb) ∧ s.best_score_so_far < sc ∧
        (evaluator_action r s).best_html_so_far = s.html ∧
        (evaluator_action r s).best_score_so_far = sc) := by
  cases r with
  | error e => exact ⟨le_refl _, fun h => absurd rfl h⟩
  | ok p =>
    obtain ⟨sc, fb⟩ := p
    by_cases h : sc > s.best_score_so_far
    · refine ⟨?_, fun _ => ⟨sc, fb, rfl, h, ?_, ?_⟩⟩ <;>
        simp [evaluator_action, h, le_of_lt h]
    · constructor
      · simp [evaluator_action, h]
      · intro hne
        exact absurd (by simp [evaluator_action, h]) hne

/-- The state embedded in a step at the evaluator node is exactly
`evaluator_action` applied to the current state. -/
theorem step_st_evaluator (cfg : Cfg) (env : Env) (rs : Run) :
    ((step cfg env .evaluator rs).1).st = evaluator_action (env.evalr rs.evalCalls) rs.st := by
  simp only [step]
  split <;> rfl

/-- One superstep never decreases `best_score_so_far`. -/
theorem step_best_mono (cfg : Cfg) (env : Env) (n : Node) (rs : Run) :
    rs.st.best_score_so_far ≤ ((step cfg env n rs).1).st.best_score_so_far := by
  cases n with
  | moderator => exact le_of_eq (moderator_action_best cfg.max_retries rs.st).1.symm
  | content_generator => exact le_of_eq (content_generator_action_best (env.gen rs.genCalls) rs.st).1.symm
  | html_validator_node => exact le_of_eq (html_validator_action_best (env.val rs.valCalls rs.st.html) rs.st).1.symm
  | evaluator =>
    rw [step_st_evaluator]
    exact (evaluator_action_best (env.evalr rs.evalCalls) rs.st).1
  | handle_content_error => exact le_of_eq (handle_content_error_action_best rs.st).1.symm
  | prepare_final_output => exact le_of_eq (prepare_final_output_action_best rs.st).1.symm

/-- A whole (fuel-bounded) execution never decreases `best_score_so_far`. -/
theorem exec_best_mono (cfg : Cfg) (env : Env) :
    ∀ (fuel : Nat) (n : Node) (rs : Run),
      rs.st.best_score_so_far ≤ ((exec cfg env fuel n rs).1).st.best_score_so_far := by
  intro fuel
  induction fuel with
  | zero => intro n rs; exact le_refl _
  | succ f ih =>
    intro n rs
    have h1 := step_best_mono cfg env n rs
    rcases hs : step cfg env n rs with ⟨rs', nxt⟩
    rw [hs] at h1
    cases nxt with
    | none => simpa [exec, hs] using h1
    | some n' =>
      calc rs.st.best_score_so_far ≤ rs'.st.best_score_so_far := h1
        _ ≤ ((exec cfg env f n' rs').1).st.best_score_so_far := ih n' rs'
        _ = ((exec cfg env (f + 1) n rs).1).st.best_score_so_far := by
              simp [exec, hs]

end HtmlAgent

/-- C5: within one run, `best_score_so_far` never decreases — across a single
superstep and across any whole execution — and the best-so-far pair changes
only at an evaluator step whose structured response carries a strictly
greater score (ties keep the earlier candidate), in which case the new pair
is exactly (current html, that score); in particular an evaluation that
raises (recorded as score 0) never updates the pair. -/
theorem c5_best_so_far_invariant (cfg : HtmlAgent.Cfg) (env : HtmlAgent.Env)
    (n : HtmlAgent.Node) (rs : HtmlAgent.Run) :
    rs.st.best_score_so_far ≤ ((HtmlAgent.step cfg env n rs).1).st.best_score_so_far ∧
    ((((HtmlAgent.step cfg env n rs).1).st.best_html_so_far,
        ((HtmlAgent.step cfg env n rs).1).st.best_score_so_far) ≠
          (rs.st.best_html_so_far, rs.st.best_score_so_far) →
      n = .evaluator ∧
      ∃ sc fb, env.evalr rs.evalCalls = .ok (sc, fb) ∧
        rs.st.best_score_so_far < sc ∧
        ((HtmlAgent.step cfg env n rs).1).st.best_html_so_far = rs.st.html ∧
        ((HtmlAgent.step cfg env n rs).1).st.best_score_so_far = sc) ∧
    (∀ fuel, rs.st.best_score_so_far ≤ ((HtmlAgent.exec cfg env fuel n rs).1).st.best_score_so_far) := by
  refine ⟨HtmlAgent.step_best_mono cfg env n rs, ?_, fun fuel => HtmlAgent.exec_best_mono cfg env fuel n rs⟩
  intro hne
  cases n with
  | moderator =>
    obtain ⟨h1, h2⟩ := HtmlAgent.moderator_action_best cfg.max_retries rs.st
    exact absurd (by rw [show ((HtmlAgent.step cfg env .moderator rs).1).st = HtmlAgent.moderator_action cfg.max_retries rs.st from rfl, h1, h2]) hne
  | content_generator =>
    obtain ⟨h1, h2⟩ := HtmlAgent.content_generator_action_best (env.gen rs.genCalls) rs.st
    exact absurd (by rw [show ((HtmlAgent.step cfg env .content_generator rs).1).st = HtmlAgent.content_generator_action (env.gen rs.genCalls) rs.st from rfl, h1, h2]) hne
  | html_validator_node =>
    obtain ⟨h1, h2⟩ := HtmlAgent.html_validator_action_best (env.val rs.valCalls rs.st.html) rs.st
    exact absurd (by rw [show ((HtmlAgent.step cfg env .html_validator_node rs).1).st = HtmlAgent.html_validator_action (env.val rs.valCalls rs.st.html) rs.st from rfl, h1, h2]) hne
  | evaluator =>
    rw [HtmlAgent.step_st_evaluator] at hne ⊢
    exact ⟨rfl, (HtmlAgent.evaluator_action_best (env.evalr rs.evalCalls) rs.st).2 hne⟩
  | handle_content_error =>
    obtain ⟨h1, h2⟩ := HtmlAgent.handle_content_error_action_best rs.st
    exact absurd (by rw [show ((HtmlAgent.step cfg env .handle_content_error rs).1).st = HtmlAgent.handle_content_error_action rs.st from rfl, h1, h2]) hne
  | prepare_final_output =>
    obtain ⟨h1, h2⟩ := HtmlAgent.prepare_final_output_action_best rs.st
    exact absurd (by rw [show ((HtmlAgent.step cfg env .prepare_final_output rs).1).st = HtmlAgent.prepare_final_output_action rs.st from rfl, h1, h2]) hne

/-- An execution record one generation into a run, used to exercise the
best-so-far update at the evaluator. -/
def rsAtEvaluator : HtmlAgent.Run :=
  { HtmlAgent.initRun with
    st := { HtmlAgent.initial_state with html := "<p><span>ok</span></p>" } }

/-- C5 witness: at a concrete evaluator step scoring 95 over a best of -1,
the pair does change and the characterization applies. -/
theorem c5_witness :
    rsAtEvaluator.st.best_score_so_far ≤
      ((HtmlAgent.step cfgDefault envAccept .evaluator rsAtEvaluator).1).st.best_score_so_far ∧
    (HtmlAgent.Node.evaluator = .evaluator ∧
      ∃ sc fb, envAccept.evalr rsAtEvaluator.evalCalls = .ok (sc, fb) ∧
        rsAtEvaluator.st.best_score_so_far < sc ∧
        ((HtmlAgent.step cfgDefault envAccept .evaluator rsAtEvaluator).1).st.best_html_so_far = rsAtEvaluator.st.html ∧
        ((HtmlAgent.step cfgDefault envAccept .evaluator rsAtEvaluator).1).st.best_score_so_far = sc) :=
  ⟨(c5_best_so_far_invariant cfgDefault envAccept .evaluator rsAtEvaluator).1,
   (c5_best_so_far_invariant cfgDefault envAccept .evaluator rsAtEvaluator).2.1 (by decide)⟩

namespace HtmlAgent

/-- Every superstep increments the ghost step counter by exactly one. -/
theorem step_steps (cfg : Cfg) (env : Env) (n : Node) (rs : Run) :
    ((step cfg env n rs).1).steps = rs.steps + 1 := by
  cases n with
  | evaluator => simp only [step]; split <;> rfl
  | moderator => rfl
  | content_generator => rfl
  | html_validator_node => rfl
  | handle_content_error => rfl
  | prepare_final_output => rfl

/-- A fuel-bounded execution performs at most `fuel` supersteps. -/
theorem exec_steps_le (cfg : Cfg) (env : Env) :
    ∀ (fuel : Nat) (n : Node) (rs : Run),
      ((exec cfg env fuel n rs).1).steps ≤ rs.steps + fuel := by
  intro fuel
  induction fuel with
  | zero => intro n rs; exact le_refl _
  | succ f ih =>
    intro n rs
    rcases hs : step cfg env n rs with ⟨rs', nxt⟩
    have h1 : rs'.steps = rs.steps + 1 := by
      have h := step_steps cfg env n rs
      rw [hs] at h
      exact h
    cases nxt with
    | none =>
      simp only [exec, hs]
      omega
    | some n' =>
      have h2 := ih n' rs'
      simp only [exec, hs]
      omega

end HtmlAgent

/-- C6: every run of the generation-loop state machine performs at most the
hard bound of 15 supersteps (the configured langgraph recursion limit), so
`HtmlAgent.run` is total; and whenever the bound is exhausted before END is
reached, the run returns `status = "error"` with the fixed sentinel html
instead of raising to the caller. -/
theorem c6_recursion_guard (cfg : HtmlAgent.Cfg) (env : HtmlAgent.Env) :
    ((HtmlAgent.execRun cfg env).1).steps ≤ HtmlAgent.recursionLimit ∧
    ((HtmlAgent.execRun cfg env).2 = false →
      HtmlAgent.run cfg env = { status := "error", html := HtmlAgent.errorHtml }) := by
  constructor
  · have h := HtmlAgent.exec_steps_le cfg env HtmlAgent.recursionLimit .moderator HtmlAgent.initRun
    simpa [HtmlAgent.execRun, HtmlAgent.initRun] using h
  · intro h
    unfold HtmlAgent.run
    rcases hx : HtmlAgent.execRun cfg env with ⟨rs, b⟩
    rw [hx] at h
    simp only at h
    subst h
    simp only

/-- C6 witness: the always-low-score run under `max_retries = 1` exhausts the
recursion limit, and the guard converts that into the sentinel error
response. -/
theorem c6_witness :
    HtmlAgent.run cfgR1 envLowScore = { status := "error", html := HtmlAgent.errorHtml } :=
  (c6_recursion_guard cfgR1 envLowScore).2 rfl

namespace ApplyAgent

/-- One-step unfolding of the apply-graph executor. -/
theorem exec_succ (m : Nat) (env : Env) (f : Nat) (n : Node) (rs : Run) :
    exec m env (f + 1) n rs =
      match step m env n rs with
      | (rs', .halt) => (rs', .finished)
      | (rs', .invalidBranch) => (rs', .invalidBranch)
      | (rs', .node n') => exec m env f n' rs' := rfl

theorem moderator_action_outcome (m : Nat) (s : State) :
    (moderator_action m s).outcome = s.outcome := by
  simp only [moderator_action]
  split
  · rfl
  · split <;> rfl

theorem moderator_action_counters (m : Nat) (env : Env) (rs : Run) :
    ((step m env .moderator rs).1).modelCalls = rs.modelCalls ∧
    ((step m env .moderator rs).1).applyCalls = rs.applyCalls ∧
    ((step m env .moderator rs).1).st.outcome = rs.st.outcome :=
  ⟨rfl, rfl, moderator_action_outcome m rs.st⟩

/-- The moderator's outgoing edge goes to the error handler or the decider. -/
theorem step_moderator_next (m : Nat) (env : Env) (rs : Run) :
    (step m env .moderator rs).2 = .node .handle_error ∨
    (step m env .moderator rs).2 = .node .location_decider := by
  simp only [step]
  split
  · left; rfl
  · split
    · left; rfl
    · right; rfl

/-- The decider's outgoing edge: to the apply request on success, back to the
moderator on a (recorded) error outcome, or an invalid branch value. -/
theorem step_decider_next (m : Nat) (env : Env) (rs : Run) :
    (step m env .location_decider rs).2 = .node .send_apply_request ∨
    ((step m env .location_decider rs).2 = .node .moderator ∧
      ((step m env .location_decider rs).1).st.outcome = "error") ∨
    (step m env .location_decider rs).2 = .invalidBranch := by
  simp only [step]
  split
  · left; rfl
  · split
    · rename_i h2
      exact Or.inr (Or.inl ⟨rfl, h2⟩)
    · exact Or.inr (Or.inr rfl)

/-- The apply-request node records the resume status; it halts only when
that status is "success", routes to the error handler when it is "error",
and is an invalid branch otherwise. It never routes back to the moderator
or the decider. -/
theorem step_send_spec (m : Nat) (env : Env) (rs : Run) :
    ((step m env .send_apply_request rs).1).st.outcome = env.resume.getD "error" ∧
    ((step m env .send_apply_request rs).2 = .halt → env.resume.getD "error" = "success") ∧
    ((step m env .send_apply_request rs).2 = .halt ∨
      ((step m env .send_apply_request rs).2 = .node .handle_error ∧
        ((step m env .send_apply_request rs).1).st.outcome = "error") ∨
      (step m env .send_apply_request rs).2 = .invalidBranch) := by
  refine ⟨rfl, ?_, ?_⟩ <;> simp only [step]
  · split
    · rename_i h1
      exact fun _ => h1
    · split <;> exact fun h => absurd h (by simp)
  · split
    · left; rfl
    · split
      · rename_i h2
        exact Or.inr (Or.inl ⟨rfl, h2⟩)
      · exact Or.inr (Or.inr rfl)

/-- The error handler always halts without touching the state. -/
theorem step_handle_error_spec (m : Nat) (env : Env) (rs : Run) :
    step m env .handle_error rs = (rs, .halt) := rfl

/-- How each node changes the apply counter. -/
theorem step_applyCalls (m : Nat) (env : Env) (n : Node) (rs : Run) :
    ((step m env n rs).1).applyCalls =
      if n = Node.send_apply_request then rs.applyCalls + 1 else rs.applyCalls := by
  cases n <;> rfl

end ApplyAgent

namespace ApplyAgent

/-- The apply-request node executes at most once in any execution: once it
has run, control is at the error handler or END, both of which leave the
counter alone. -/
theorem exec_apply_calls_le (m : Nat) (env : Env) :
    ∀ (fuel : Nat) (n : Node) (rs : Run),
      rs.applyCalls ≤ 1 →
      (n ≠ .handle_error → rs.applyCalls = 0) →
      ((exec m env fuel n rs).1).applyCalls ≤ 1 := by
  intro fuel
  induction fuel with
  | zero => intro n rs h1 _; exact h1
  | succ f ih =>
    intro n rs h1 h0
    rcases hs : step m env n rs with ⟨rs', nxt⟩
    have hac : rs'.applyCalls = if n = Node.send_apply_request then rs.applyCalls + 1 else rs.applyCalls := by
      have h := step_applyCalls m env n rs
      rw [hs] at h
      exact h
    have hle : rs'.applyCalls ≤ 1 := by
      by_cases hn : n = Node.send_apply_request
      · have h0' : rs.applyCalls = 0 := h0 (by rw [hn]; decide)
        rw [hac, if_pos hn, h0']
      · rw [hac, if_neg hn]; exact h1
    cases nxt with
    | halt => rw [exec_succ, hs]; exact hle
    | invalidBranch => rw [exec_succ, hs]; exact hle
    | node n' =>
      rw [exec_succ, hs]
      apply ih n' rs' hle
      intro hn'
      by_cases hn : n = Node.send_apply_request
      · exfalso
        subst hn
        rcases (step_send_spec m env rs).2.2 with h | ⟨h, _⟩ | h <;>
          rw [hs] at h <;> simp at h
        exact hn' h
      · by_cases nh : n = Node.handle_error
        · exfalso
          subst nh
          have h2 := step_handle_error_spec m env rs
          rw [hs] at h2
          simp at h2
        · rw [hac, if_neg hn]
          exact h0 nh

end ApplyAgent

namespace ApplyAgent

/-- When the external resume event does not report "success", no execution
of the apply graph can finish with a "success" outcome: the only halt with
outcome "success" is the apply-request node's accept edge, which requires
the resume status to be exactly "success". -/
theorem exec_outcome_not_success (m : Nat) (env : Env) (hres : env.resume ≠ some "success") :
    ∀ (fuel : Nat) (n : Node) (rs : Run),
      ((n = .moderator ∨ n = .handle_error) → rs.st.outcome ≠ "success") →
      (exec m env fuel n rs).2 = .finished →
      ((exec m env fuel n rs).1).st.outcome ≠ "success" := by
  intro fuel
  induction fuel with
  | zero =>
    intro n rs _ hfin
    exact absurd hfin (by simp [exec])
  | succ f ih =>
    intro n rs hinv hfin
    rcases hs : step m env n rs with ⟨rs', nxt⟩
    cases n with
    | moderator =>
      have houtcome : rs'.st.outcome = rs.st.outcome := by
        have h := (moderator_action_counters m env rs).2.2
        rw [hs] at h
        exact h
      rcases step_moderator_next m env rs with h | h <;> rw [hs] at h <;> simp only [] at h <;> subst h <;>
        rw [exec_succ, hs] at hfin ⊢
      · exact ih .handle_error rs' (fun _ => by rw [houtcome]; exact hinv (Or.inl rfl)) hfin
      · exact ih .location_decider rs'
          (fun hor => by rcases hor with h | h <;> exact absurd h (by decide)) hfin
    | location_decider =>
      rcases step_decider_next m env rs with h | ⟨h, herr⟩ | h <;> rw [hs] at h <;>
        simp only [] at h
      · subst h
        rw [exec_succ, hs] at hfin ⊢
        exact ih .send_apply_request rs'
          (fun hor => by rcases hor with h | h <;> exact absurd h (by decide)) hfin
      · rw [hs] at herr
        simp only [] at herr
        subst h
        rw [exec_succ, hs] at hfin ⊢
        exact ih .moderator rs' (fun _ => by rw [herr]; decide) hfin
      · subst h
        rw [exec_succ, hs] at hfin
        exact absurd hfin (by simp)
    | send_apply_request =>
      obtain ⟨s1, s2, s3⟩ := step_send_spec m env rs
      rw [hs] at s1 s2 s3
      simp only [] at s1 s2 s3
      rcases s3 with h | ⟨h, herr⟩ | h
      · exfalso
        rcases henv : env.resume with _ | x
        · rw [henv] at s2
          exact absurd (s2 h) (by decide)
        · have hx : x = "success" := by
            have := s2 h
            rw [henv] at this
            exact this
        
          exact hres (by rw [henv, hx])
      · subst h
        rw [exec_succ, hs] at hfin ⊢
        exact ih .handle_error rs' (fun _ => by rw [herr]; decide) hfin
      · subst h
        rw [exec_succ, hs] at hfin
        exact absurd hfin (by simp)
    | handle_error =>
      have h2 := step_handle_error_spec m env rs
      rw [hs] at h2
      injection h2 with hrs hnxt
      subst hrs
      subst hnxt
      rw [exec_succ, hs] at hfin ⊢
      exact hinv (Or.inr rfl)

end ApplyAgent

/-- C8: in every apply-flow run the apply-request suspension point is entered
at most once; its outgoing edge never returns to the moderator or the
location decider; and whenever the external resume event reports any status
other than "success", the overall run result has `status = "error"`. -/
theorem c8_non_success_resume_error
    (m : Nat) (env : ApplyAgent.Env) (a : ApplyArg) (d p cid ch : String) :
    ((ApplyAgent.exec m env 15 .moderator (ApplyAgent.initRun a d p cid ch)).1).applyCalls ≤ 1 ∧
    (∀ rs : ApplyAgent.Run,
      (ApplyAgent.step m env .send_apply_request rs).2 ≠ .node .moderator ∧
      (ApplyAgent.step m env .send_apply_request rs).2 ≠ .node .location_decider) ∧
    (env.resume ≠ some "success" →
      (ApplyAgent.run m env a d p cid ch).status = "error") := by
  refine ⟨?_, ?_, ?_⟩
  · exact ApplyAgent.exec_apply_calls_le m env 15 .moderator _ (Nat.zero_le 1) (fun _ => rfl)
  · intro rs
    rcases (ApplyAgent.step_send_spec m env rs).2.2 with h | ⟨h, _⟩ | h <;>
      exact ⟨by rw [h]; decide, by rw [h]; decide⟩
  · intro hres
    have hout := ApplyAgent.exec_outcome_not_success m env hres 15 .moderator
      (ApplyAgent.initRun a d p cid ch)
      (fun _ => by simp [ApplyAgent.initRun, ApplyAgent.initial_state])
    unfold ApplyAgent.run
    rcases hx : ApplyAgent.exec m env 15 .moderator (ApplyAgent.initRun a d p cid ch) with ⟨rs, oc⟩
    rw [hx] at hout
    cases oc with
    | finished =>
      have h2 : rs.st.outcome ≠ "success" := hout rfl
      change (if rs.st.outcome ≠ "success" then "error" else "success") = "error"
      rw [if_pos h2]
    | recursionLimit => rfl
    | invalidBranch => rfl

/-- C8 witness: a run whose location decision succeeds but whose resume
event reports "failure" yields an error result. -/
theorem c8_witness :
    (ApplyAgent.run 3 envApplyFail (.valid .INSERT) "doc" "prompt" "c1" "<p>").status = "error" :=
  (c8_non_success_resume_error 3 envApplyFail (.valid .INSERT) "doc" "prompt" "c1" "<p>").2.2
    (by decide)

namespace ApplyAgent

/-- The moderator step: it never invokes the model; the retry counter either
stays (invalid type or stop path) or is incremented from a value within
budget (proceed path); and the edge to the decider is taken only on the
proceed path. -/
theorem step_moderator_retry_spec (m : Nat) (env : Env) (rs : Run) :
    ((step m env .moderator rs).1).modelCalls = rs.modelCalls ∧
    (((step m env .moderator rs).1).st.current_retry_count = rs.st.current_retry_count ∨
      (((step m env .moderator rs).1).st.current_retry_count = rs.st.current_retry_count + 1 ∧
        rs.st.current_retry_count ≤ m)) ∧
    ((step m env .moderator rs).2 = .node .location_decider →
      ((step m env .moderator rs).1).st.current_retry_count = rs.st.current_retry_count + 1 ∧
      rs.st.current_retry_count ≤ m) := by
  refine ⟨rfl, ?_, ?_⟩
  · simp only [step, moderator_action]
    split
    · exact Or.inl rfl
    · split
      · exact Or.inl rfl
      · rename_i h2
        exact Or.inr ⟨rfl, Nat.le_of_not_lt h2⟩
  · simp only [step, moderator_action]
    split
    · intro h
      simp at h
    · split
      · intro h
        split at h <;> simp at h
      · rename_i h2
        intro _
        exact ⟨rfl, Nat.le_of_not_lt h2⟩

/-- The decider step invokes the model exactly once and does not touch the
retry counter. -/
theorem step_decider_counters (m : Nat) (env : Env) (rs : Run) :
    ((step m env .location_decider rs).1).modelCalls = rs.modelCalls + 1 ∧
    ((step m env .location_decider rs).1).st.current_retry_count = rs.st.current_retry_count := by
  refine ⟨rfl, ?_⟩
  simp only [step, location_decider_action]
  rcases hm : env.model rs.modelCalls with e | raw
  · rfl
  · rcases hj : env.jparse (jsonPayload (pyStrip raw)) with _ | fields <;> simp [hj]

/-- The apply-request step touches neither the model counter nor the retry
counter. -/
theorem step_send_counters (m : Nat) (env : Env) (rs : Run) :
    ((step m env .send_apply_request rs).1).modelCalls = rs.modelCalls ∧
    ((step m env .send_apply_request rs).1).st.current_retry_count = rs.st.current_retry_count :=
  ⟨rfl, rfl⟩

/-- Every pass through the apply moderator increments the retry counter
before the decider runs, so the decider's model is invoked at most
`max_retries + 1` times in any execution. -/
theorem exec_model_calls_le (m : Nat) (env : Env) :
    ∀ (fuel : Nat) (n : Node) (rs : Run),
      rs.modelCalls ≤ rs.st.current_retry_count →
      rs.st.current_retry_count ≤ m + 1 →
      (n = .location_decider → rs.modelCalls < rs.st.current_retry_count) →
      ((exec m env fuel n rs).1).modelCalls ≤ m + 1 := by
  intro fuel
  induction fuel with
  | zero => intro n rs h1 h2 _; exact le_trans h1 h2
  | succ f ih =>
    intro n rs h1 h2 h3
    rcases hs : step m env n rs with ⟨rs', nxt⟩
    cases n with
    | moderator =>
      obtain ⟨m1, m2, m3⟩ := step_moderator_retry_spec m env rs
      rw [hs] at m1 m2 m3
      simp only [] at m1 m2 m3
      have hmc : rs'.modelCalls ≤ rs'.st.current_retry_count := by
        rw [m1]
        rcases m2 with h | ⟨h, _⟩ <;> rw [h]
        · exact h1
        · exact le_trans h1 (Nat.le_succ _)
      have hr2 : rs'.st.current_retry_count ≤ m + 1 := by
        rcases m2 with h | ⟨h, hle⟩ <;> rw [h]
        · exact h2
        · omega
      cases nxt with
      | halt => rw [exec_succ, hs]; exact le_trans hmc hr2
      | invalidBranch => rw [exec_succ, hs]; exact le_trans hmc hr2
      | node n' =>
        rw [exec_succ, hs]
        apply ih n' rs' hmc hr2
        intro hn'
        subst hn'
        obtain ⟨hinc, _⟩ := m3 rfl
        rw [m1, hinc]
        exact Nat.lt_succ_of_le h1
    | location_decider =>
      obtain ⟨d1, d2⟩ := step_decider_counters m env rs
      rw [hs] at d1 d2
      simp only [] at d1 d2
      have hlt := h3 rfl
      have hmc : rs'.modelCalls ≤ rs'.st.current_retry_count := by
        rw [d1, d2]
        exact hlt
      have hr2 : rs'.st.current_retry_count ≤ m + 1 := by rw [d2]; exact h2
      cases nxt with
      | halt => rw [exec_succ, hs]; exact le_trans hmc hr2
      | invalidBranch => rw [exec_succ, hs]; exact le_trans hmc hr2
      | node n' =>
        rw [exec_succ, hs]
        apply ih n' rs' hmc hr2
        intro hn'
        subst hn'
        exfalso
        rcases step_decider_next m env rs with h | ⟨h, _⟩ | h <;> rw [hs] at h <;> simp at h
    | send_apply_request =>
      obtain ⟨s1, s2⟩ := step_send_counters m env rs
      rw [hs] at s1 s2
      simp only [] at s1 s2
      have hmc : rs'.modelCalls ≤ rs'.st.current_retry_count := by rw [s1, s2]; exact h1
      have hr2 : rs'.st.current_retry_count ≤ m + 1 := by rw [s2]; exact h2
      cases nxt with
      | halt => rw [exec_succ, hs]; exact le_trans hmc hr2
      | invalidBranch => rw [exec_succ, hs]; exact le_trans hmc hr2
      | node n' =>
        rw [exec_succ, hs]
        apply ih n' rs' hmc hr2
        intro hn'
        subst hn'
        exfalso
        rcases (step_send_spec m env rs).2.2 with h | ⟨h, _⟩ | h <;> rw [hs] at h <;> simp at h
    | handle_error =>
      have h2' := step_handle_error_spec m env rs
      rw [hs] at h2'
      injection h2' with hrs hnxt
      subst hrs
      subst hnxt
      rw [exec_succ, hs]
      exact le_trans h1 h2

end ApplyAgent

/-- C7: the DecideLocation step parses the fenced code block's contents when
the regex finds one and the whole stripped response otherwise; a JSON parse
failure yields outcome "error", whose edge routes back to the moderator; a
parsed object's missing position keys default to the sentinel "-1"; and in
any full run the decider's model is invoked at most `max_retries + 1` times
(one initial attempt plus up to `max_retries` retries). -/
theorem c7_location_decider_parsing
    (env : ApplyAgent.Env) (s : ApplyAgent.State) (raw : String) :
    (∀ fields, env.jparse (ApplyAgent.jsonPayload (pyStrip raw)) = some fields →
      ApplyAgent.location_decider_action (.ok raw) env.jparse s =
        { s with
            outcome := "success"
            data_position_id_start := (ApplyAgent.lookupField fields "data-position-id-start").getD "-1"
            data_position_id_end := (ApplyAgent.lookupField fields "data-position-id-end").getD "-1" }) ∧
    (env.jparse (ApplyAgent.jsonPayload (pyStrip raw)) = none →
      (ApplyAgent.location_decider_action (.ok raw) env.jparse s).outcome = "error") ∧
    (∀ (m : Nat) (rs : ApplyAgent.Run),
      env.model rs.modelCalls = .ok raw →
      env.jparse (ApplyAgent.jsonPayload (pyStrip raw)) = none →
      (ApplyAgent.step m env .location_decider rs).2 = .node .moderator) ∧
    (∀ (m : Nat) (env2 : ApplyAgent.Env) (a : ApplyArg) (d p cid ch : String),
      ((ApplyAgent.exec m env2 15 .moderator (ApplyAgent.initRun a d p cid ch)).1).modelCalls ≤ m + 1) := by
  refine ⟨?_, ?_, ?_, ?_⟩
  · intro fields hj
    simp only [ApplyAgent.location_decider_action]
    rw [hj]
  · intro hj
    simp only [ApplyAgent.location_decider_action]
    rw [hj]
  · intro m rs hm hj
    simp only [ApplyAgent.step, ApplyAgent.location_decider_action]
    rw [hm]
    simp [hj]
  · intro m env2 a d p cid ch
    exact ApplyAgent.exec_model_calls_le m env2 15 .moderator _ (Nat.le_refl 0) (Nat.zero_le _)
      (fun h => absurd h (by decide))

/-- A concrete decider state for the C7 witness. -/
def applyStateW : ApplyAgent.State :=
  ApplyAgent.initial_state (.valid .INSERT) "doc" "prompt" "c1" "<p>"

/-- C7 witness: on the concrete fenced response missing the end key, the
decider succeeds with the fenced payload's start id and "-1" for the end id;
an unparsable response's decider step routes to the moderator; and the
unparsable run's model-call count respects the retry budget. -/
theorem c7_witness :
    ApplyAgent.location_decider_action (.ok fencedStartOnly) envApplyGood.jparse applyStateW =
      { applyStateW with
          outcome := "success"
          data_position_id_start := "5"
          data_position_id_end := "-1" } ∧
    (ApplyAgent.step 3 envApplyUnparsable .location_decider
        (ApplyAgent.initRun (.valid .INSERT) "doc" "prompt" "c1" "<p>")).2 = .node .moderator ∧
    ((ApplyAgent.exec 3 envApplyUnparsable 15 .moderator
        (ApplyAgent.initRun (.valid .INSERT) "doc" "prompt" "c1" "<p>")).1).modelCalls ≤ 3 + 1 := by
  refine ⟨?_, ?_, ?_⟩
  · exact (c7_location_decider_parsing envApplyGood applyStateW fencedStartOnly).1
      [("data-position-id-start", "5")] (by decide)
  · exact (c7_location_decider_parsing envApplyUnparsable applyStateW "garbage").2.2.1
      3 (ApplyAgent.initRun (.valid .INSERT) "doc" "prompt" "c1" "<p>") rfl rfl
  · exact (c7_location_decider_parsing envApplyUnparsable applyStateW "garbage").2.2.2
      3 envApplyUnparsable (.valid .INSERT) "doc" "prompt" "c1" "<p>"

namespace HtmlAgent

theorem evaluator_action_preserves (r : Except String (Int × String)) (s : State) :
    (evaluator_action r s).html = s.html ∧
    (evaluator_action r s).validation_outcome = s.validation_outcome := by
  cases r with
  | error e => exact ⟨rfl, rfl⟩
  | ok p =>
    obtain ⟨sc, fb⟩ := p
    exact ⟨rfl, rfl⟩

/-- A node other than the evaluator never changes the ghost accept flag. -/
theorem step_accepted (cfg : Cfg) (env : Env) (n : Node) (rs : Run) (h : n ≠ Node.evaluator) :
    ((step cfg env n rs).1).accepted = rs.accepted := by
  cases n with
  | evaluator => exact absurd rfl h
  | moderator => rfl
  | content_generator => rfl
  | html_validator_node => rfl
  | handle_content_error => rfl
  | prepare_final_output => rfl

/-- One-step unfolding of the generation-loop executor. -/
theorem hexec_succ (cfg : Cfg) (env : Env) (f : Nat) (n : Node) (rs : Run) :
    exec cfg env (f + 1) n rs =
      match step cfg env n rs with
      | (rs', none) => (rs', true)
      | (rs', some n') => exec cfg env f n' rs' := rfl

/-- If an execution that starts un-accepted ends with the accept flag set,
it halted at an Accept transition: the run completed, and the final html is
the last successfully validated html, with the validation outcome still
recording "success". The precondition states the invariant that the
evaluator node is only ever entered right after a successful validation. -/
theorem exec_accept_spec (cfg : Cfg) (env : Env) :
    ∀ (fuel : Nat) (n : Node) (rs : Run),
      (n = Node.evaluator → rs.st.html = rs.last_validated ∧ rs.st.validation_outcome = some "success") →
      rs.accepted = false →
      ((exec cfg env fuel n rs).1.accepted = true →
        (exec cfg env fuel n rs).2 = true ∧
        (exec cfg env fuel n rs).1.st.html = (exec cfg env fuel n rs).1.last_validated ∧
        (exec cfg env fuel n rs).1.st.validation_outcome = some "success") := by
  intro fuel
  induction fuel with
  | zero =>
    intro n rs _ hacc hres
    have h : rs.accepted = true := hres
    rw [hacc] at h
    exact Bool.noConfusion h
  | succ f ih =>
    intro n rs hpre hacc
    cases n with
    | moderator =>
      rw [hexec_succ]
      simp only [step]
      split
      · exact ih .prepare_final_output _ (fun h => absurd h (by decide)) hacc
      · exact ih .content_generator _ (fun h => absurd h (by decide)) hacc
    | content_generator =>
      rw [hexec_succ]
      simp only [step]
      split
      · exact ih .html_validator_node _ (fun h => absurd h (by decide)) hacc
      · exact ih .handle_content_error _ (fun h => absurd h (by decide)) hacc
    | html_validator_node =>
      rw [hexec_succ]
      simp only [step]
      by_cases hcond :
          (html_validator_action (env.val rs.valCalls rs.st.html) rs.st).validation_outcome = some "success"
      · simp only [if_pos hcond]
        exact ih .evaluator _ (fun _ => ⟨rfl, hcond⟩) hacc
      · simp only [if_neg hcond]
        exact ih .moderator _ (fun h => absurd h (by decide)) hacc
    | evaluator =>
      rw [hexec_succ]
      simp only [step]
      by_cases hsc :
          (evaluator_action (env.evalr rs.evalCalls) rs.st).evaluator_score.getD 0 ≥ cfg.acceptance_threshold
      · simp only [if_pos hsc]
        intro _
        obtain ⟨hpre1, hpre2⟩ := hpre rfl
        obtain ⟨hph, hpv⟩ := evaluator_action_preserves (env.evalr rs.evalCalls) rs.st
        refine ⟨by trivial, ?_, ?_⟩
        · rw [hph]
          exact hpre1
        · rw [hpv]
          exact hpre2
      · simp only [if_neg hsc]
        exact ih .moderator _ (fun h => absurd h (by decide)) hacc
    | handle_content_error =>
      rw [hexec_succ]
      simp only [step]
      exact ih .moderator _ (fun h => absurd h (by decide)) hacc
    | prepare_final_output =>
      rw [hexec_succ]
      simp only [step]
      intro hres
      have h : rs.accepted = true := hres
      rw [hacc] at h
      exact Bool.noConfusion h

end HtmlAgent

/-- C3 (amended): if some attempt's evaluation reaches the acceptance
threshold (the run's ghost accept flag is set), the loop terminates at that
attempt, the returned html is exactly that attempt's validated html (the
validator's repaired output), and — provided that validated html is
non-empty — the result status is "success". (The unamended claim fails when
the validator's repaired output is the empty string, see the
counterexample.) -/
theorem c3_accept_terminates_with_validated_html (cfg : HtmlAgent.Cfg) (env : HtmlAgent.Env)
    (hacc : ((HtmlAgent.execRun cfg env).1).accepted = true) :
    (HtmlAgent.execRun cfg env).2 = true ∧
    (HtmlAgent.run cfg env).html = ((HtmlAgent.execRun cfg env).1).last_validated ∧
    (((HtmlAgent.execRun cfg env).1).last_validated ≠ "" →
      (HtmlAgent.run cfg env).status = "success") := by
  obtain ⟨hdone0, hhtml0, hval0⟩ :=
    HtmlAgent.exec_accept_spec cfg env HtmlAgent.recursionLimit .moderator HtmlAgent.initRun
      (fun h => absurd h (by decide)) rfl hacc
  have hdone : (HtmlAgent.execRun cfg env).2 = true := hdone0
  have hhtml : ((HtmlAgent.execRun cfg env).1).st.html = ((HtmlAgent.execRun cfg env).1).last_validated :=
    hhtml0
  have hval : ((HtmlAgent.execRun cfg env).1).st.validation_outcome = some "success" := hval0
  refine ⟨hdone, ?_, ?_⟩
  · unfold HtmlAgent.run
    rcases hx : HtmlAgent.execRun cfg env with ⟨rs, b⟩
    rw [hx] at hdone hhtml hval
    simp only [] at hdone hhtml hval
    subst hdone
    change (if rs.st.validation_outcome ≠ some "error" then rs.st.html else HtmlAgent.errorHtml) =
      rs.last_validated
    rw [if_pos (by rw [hval]; decide)]
    exact hhtml
  · intro hne
    unfold HtmlAgent.run
    rcases hx : HtmlAgent.execRun cfg env with ⟨rs, b⟩
    rw [hx] at hdone hhtml hval hne
    simp only [] at hdone hhtml hval hne
    subst hdone
    change (if rs.st.html ≠ "" ∧ rs.st.validation_outcome ≠ some "error" then "success" else "error") =
      "success"
    rw [if_pos ⟨by rw [hhtml]; exact hne, by rw [hval]; decide⟩]

/-- C3 witness: the everything-succeeds environment accepts on the first
attempt with non-empty validated html, and the run reports success with
exactly that html. -/
theorem c3_witness :
    ((HtmlAgent.execRun cfgDefault envAccept).1).accepted = true ∧
    (HtmlAgent.run cfgDefault envAccept).html = ((HtmlAgent.execRun cfgDefault envAccept).1).last_validated ∧
    (HtmlAgent.run cfgDefault envAccept).status = "success" := by
  refine ⟨rfl, ?_, ?_⟩
  · exact (c3_accept_terminates_with_validated_html cfgDefault envAccept rfl).2.1
  · exact (c3_accept_terminates_with_validated_html cfgDefault envAccept rfl).2.2 (by decide)
